import Mathlib

/-!
Verification of the budget fine-tuning scripts
(`apps/budget/training-data/finetune-mlx.py` and
`apps/budget/training-data/finetune-unsloth.py`).

The locally original logic of the repository — chat-message templating,
dataset shuffling/splitting with minimum-size guarantees, derived
hyperparameters, dependency-check exits, and default data-file discovery —
is embedded shallowly below and the spec's claims about it are settled.
Machine floats (`val_split`) are modelled as exact rationals; the Python
standard library PRNG (`random.seed` / `random.shuffle`), which is not part
of the repository, is modelled as a deterministic seeded Fisher–Yates
shuffle, which is all the claims depend on.
-/

namespace Budget

/-- A chat message: one `{role, content}` pair from a record of the JSONL
input file. -/
structure Message where
  role : String
  content : String
deriving DecidableEq, Repr

/-- Rendering of one chat message inside `prepare_training_data`
(`finetune-mlx.py` lines 65-73): a message whose role is `system`, `user`
or `assistant` contributes one `im_start`/`im_end` tagged block; any other
role contributes nothing. -/
def renderMessage (m : Message) : Option String :=
  if m.role = "system" then
    some ("<|im_start|>system\n" ++ m.content ++ "<|im_end|>")
  else if m.role = "user" then
    some ("<|im_start|>user\n" ++ m.content ++ "<|im_end|>")
  else if m.role = "assistant" then
    some ("<|im_start|>assistant\n" ++ m.content ++ "<|im_end|>")
  else
    none

/-- The `text_parts` list accumulated for one record
(`finetune-mlx.py` lines 64-73). -/
def textParts (msgs : List Message) : List String :=
  msgs.filterMap renderMessage

/-- The templated training text of one record:
`"\n".join(text_parts)` (`finetune-mlx.py` line 75). -/
def exampleText (msgs : List Message) : String :=
  String.intercalate "\n" (textParts msgs)

/-- The roles the chat template recognizes. -/
def recognizedRole (r : String) : Bool :=
  r = "system" || r = "user" || r = "assistant"

/-- Spec-side rendering, written from the spec's words: a recognized
message is rendered "with exactly the tag pair for that role
(<|im_start|>role\n...<|im_end|>)". -/
def specRender (m : Message) : String :=
  "<|im_start|>" ++ m.role ++ "\n" ++ m.content ++ "<|im_end|>"

/-- Modelled from the spec: `random.seed(42)` (`finetune-mlx.py` line 78)
belongs to the Python standard library, not to this repository. Seeding
replaces the ambient PRNG state with a state determined by the seed
alone. -/
def pySeed (_prior : Nat) (n : Nat) : Nat := n

/-- Modelled from the spec: the PRNG stream behind `random.shuffle` is
library code; it is modelled as a linear congruential generator. The
claims depend only on the shuffle being a deterministic, length-preserving
permutation of its input, never on the distribution. -/
def lcgNext (s : Nat) : Nat :=
  (s * 1103515245 + 12345) % 2 ^ 31

/-- Fisher-Yates style selection, fuelled by the list length: draw the
index `s % length`, emit that element, recurse on the remainder with the
advanced PRNG state. -/
def shuffleAux (s : Nat) : Nat → List α → List α
  | 0, _ => []
  | _ + 1, [] => []
  | fuel + 1, x :: xs =>
    let i := s % (x :: xs).length
    (x :: xs).getD i x :: shuffleAux (lcgNext s) fuel ((x :: xs).eraseIdx i)

/-- Modelled from the spec: `random.shuffle(examples)`
(`finetune-mlx.py` line 79) as a seeded in-memory permutation. -/
def pyShuffle (s : Nat) (l : List α) : List α :=
  shuffleAux s l.length l

/-- One iteration of the duplication loop (`finetune-mlx.py` line 89):
`examples.extend(examples[:min_batch_size * 2 - len(examples)])`. -/
def dupStep (target : Nat) (l : List α) : List α :=
  l ++ l.take (target - l.length)

/-- The duplication `while` loop (`finetune-mlx.py` lines 88-89), with
explicit fuel: `none` means the loop has not terminated within `fuel`
iterations. -/
def dupLoop (target : Nat) : Nat → List α → Option (List α)
  | 0, l => if target ≤ l.length then some l else none
  | fuel + 1, l =>
      if target ≤ l.length then some l
      else dupLoop target fuel (dupStep target l)

/-- `val_size = max(min_batch_size, int(total * val_split))`
(`finetune-mlx.py` line 83). The float multiplication is modelled exactly
over `ℚ` and Python's truncating `int(...)` as floor-then-clamp, which
agrees with it on every value this program can produce. -/
def valSize (total : Nat) (val_split : ℚ) (min_batch_size : Nat) : Nat :=
  max min_batch_size (Int.toNat ⌊(total : ℚ) * val_split⌋)

/-- The list of templated example texts after `random.seed(42)` and
`random.shuffle` (`finetune-mlx.py` lines 54-79), as a function of the
ambient PRNG state `rng0` and the parsed records of the input file. -/
def shuffledExamples (rng0 : Nat) (records : List (List Message)) : List String :=
  pyShuffle (pySeed rng0 42) (records.map exampleText)

/-- `prepare_training_data` (`finetune-mlx.py` lines 50-109), modelled on
the already-parsed records (each JSONL line's `messages` array) and
returning the `(train_examples, valid_examples)` pair of templated texts.
`rng0` is the ambient PRNG state at entry; `fuel` bounds the duplication
loop, and `none` means that loop did not terminate. -/
def prepare_training_data (rng0 : Nat) (records : List (List Message))
    (val_split : ℚ) (min_batch_size : Nat) (fuel : Nat) :
    Option (List String × List String) :=
  let examples := shuffledExamples rng0 records
  let total := examples.length
  let val0 := valSize total val_split min_batch_size
  if total < min_batch_size * 2 then
    match dupLoop (min_batch_size * 2) fuel examples with
    | none => none
    | some padded =>
        some (padded.drop min_batch_size, padded.take min_batch_size)
  else
    some (examples.drop val0, examples.take val0)

/-- Batch-size adjustment in `train` (`finetune-mlx.py` lines 160-163):
when the dataset is smaller than the requested batch size, fall back to
`max(1, num_examples)`. -/
def adjustBatchSize (num_examples batch_size : Nat) : Nat :=
  if num_examples < batch_size then max 1 num_examples else batch_size

/-- Iteration count in `train` (`finetune-mlx.py` lines 165-171):
`iters = num_examples * epochs // batch_size`, raised to 10 when the
quotient is below 10. -/
def computeIters (num_examples epochs batch_size : Nat) : Nat :=
  let iters := num_examples * epochs / batch_size
  if iters < 10 then 10 else iters

/-- Outcome of running a script's `train` entry point, as the operating
system sees it. -/
inductive RunOutcome
  | exit (code : Nat)
  | completed
deriving DecidableEq, Repr

/-- Process exit code: `sys.exit(code)` terminates with `code`; when
`train` returns normally, `main` finishes and the interpreter exits 0. -/
def processExitCode : RunOutcome → Nat
  | .exit c => c
  | .completed => 0

/-- Dependency-check head of the MLX script's `train`
(`finetune-mlx.py` lines 122-125): a missing `mlx_lm` prints the install
hint and calls `sys.exit(1)`; otherwise the rest of `train` runs. -/
def mlxTrainOutcome (mlx_lm_installed : Bool) (rest : RunOutcome) : RunOutcome :=
  if mlx_lm_installed then rest else .exit 1

/-- Dependency- and model-check head of the Unsloth script's `train`
(`finetune-unsloth.py` lines 109-117): missing unsloth prints an error and
`return`s; an unknown model key also `return`s; otherwise the rest of
`train` runs. -/
def unslothTrainOutcome (unsloth_available : Bool) (known_model : Bool)
    (rest : RunOutcome) : RunOutcome :=
  if unsloth_available then
    if known_model then rest else .completed
  else .completed

/-- The filename patterns tried in order by `find_latest_training_file`
(`finetune-mlx.py` lines 225-229; `finetune-unsloth.py` lines 197-201 is
identical). -/
def trainingFilePatterns : List String :=
  ["budget-assistant-*.jsonl", "personal/personal-*.jsonl", "combined.jsonl"]

/-- `sorted(files, reverse=True)`: descending sort of the glob matches in
the string order — newest first, for the date-stamped filenames. -/
def sortedDesc (files : List String) : List String :=
  files.insertionSort (· ≥ ·)

/-- The pattern loop of `find_latest_training_file`: the first pattern
with any matches wins via `files[0]` of the descending sort, and the fixed
fallback closes the loop. -/
def findLatestGo (glob : String → List String) : List String → String
  | [] => "budget-assistant-latest.jsonl"
  | p :: ps =>
      match sortedDesc (glob p) with
      | [] => findLatestGo glob ps
      | f :: _ => f

/-- `find_latest_training_file` (both scripts), over an abstract `glob`
from pattern to matching filenames. -/
def find_latest_training_file (glob : String → List String) : String :=
  findLatestGo glob trainingFilePatterns

theorem renderMessage_recognized (m : Message)
    (h : recognizedRole m.role = true) :
    renderMessage m = some (specRender m) := by
  by_cases hs : m.role = "system"
  · have h1 : renderMessage m =
        some ("<|im_start|>system\n" ++ m.content ++ "<|im_end|>") := by
      simp [renderMessage, hs]
    rw [h1]; congr 1; apply String.ext
    simp [specRender, hs, String.data_append]
  · by_cases hu : m.role = "user"
    · have h1 : renderMessage m =
          some ("<|im_start|>user\n" ++ m.content ++ "<|im_end|>") := by
        simp [renderMessage, hs, hu]
      rw [h1]; congr 1; apply String.ext
      simp [specRender, hu, String.data_append]
    · by_cases ha : m.role = "assistant"
      · have h1 : renderMessage m =
            some ("<|im_start|>assistant\n" ++ m.content ++ "<|im_end|>") := by
          simp [renderMessage, hs, hu, ha]
        rw [h1]; congr 1; apply String.ext
        simp [specRender, ha, String.data_append]
      · exfalso
        simp [recognizedRole, hs, hu, ha] at h

theorem renderMessage_unrecognized (m : Message)
    (h : recognizedRole m.role = false) :
    renderMessage m = none := by
  simp only [recognizedRole, Bool.or_eq_false_iff, decide_eq_false_iff_not] at h
  simp [renderMessage, h.1.1, h.1.2, h.2]

/-- C6: the chat-template conversion renders exactly the recognized
messages, in their original order, each with exactly the tag pair of its
role: the `text_parts` list equals the spec-side rendering mapped over the
recognized messages in order. -/
theorem mlx_chat_template_order_and_tags (msgs : List Message) :
    textParts msgs =
      (msgs.filter (fun m => recognizedRole m.role)).map specRender := by
  induction msgs with
  | nil => rfl
  | cons m rest ih =>
      by_cases h : recognizedRole m.role
      · simp [textParts, List.filterMap_cons, renderMessage_recognized m h,
          List.filter_cons, h, ← ih]
      · simp only [Bool.not_eq_true] at h
        simp [textParts, List.filterMap_cons, renderMessage_unrecognized m h,
          List.filter_cons, h, ← ih]

/-- C10: a message whose role is not system/user/assistant contributes
nothing: deleting it from anywhere in the list leaves both the
`text_parts` list (hence the relative order of the recognized messages)
and the joined training text unchanged. -/
theorem mlx_chat_template_skips_unknown_roles (l1 l2 : List Message)
    (m : Message) (h : recognizedRole m.role = false) :
    textParts (l1 ++ m :: l2) = textParts (l1 ++ l2) ∧
    exampleText (l1 ++ m :: l2) = exampleText (l1 ++ l2) := by
  have hparts : textParts (l1 ++ m :: l2) = textParts (l1 ++ l2) := by
    simp [textParts, List.filterMap_append, List.filterMap_cons,
      renderMessage_unrecognized m h]
  exact ⟨hparts, by simp [exampleText, hparts]⟩

/-- Witness for C10 at a concrete input: a `tool`-role message inserted
between a user and an assistant message is skipped. -/
theorem mlx_chat_template_skips_unknown_roles_witness :
    recognizedRole "tool" = false ∧
    (textParts ([⟨"user", "hi"⟩] ++ ⟨"tool", "x"⟩ :: [⟨"assistant", "yo"⟩]) =
        textParts ([⟨"user", "hi"⟩] ++ [⟨"assistant", "yo"⟩]) ∧
      exampleText ([⟨"user", "hi"⟩] ++ ⟨"tool", "x"⟩ :: [⟨"assistant", "yo"⟩]) =
        exampleText ([⟨"user", "hi"⟩] ++ [⟨"assistant", "yo"⟩])) :=
  ⟨by decide,
    mlx_chat_template_skips_unknown_roles [⟨"user", "hi"⟩] [⟨"assistant", "yo"⟩]
      ⟨"tool", "x"⟩ (by decide)⟩

theorem length_shuffleAux :
    ∀ (fuel : Nat) (s : Nat) (l : List α), l.length = fuel →
      (shuffleAux s fuel l).length = fuel := by
  intro fuel
  induction fuel with
  | zero => intro s l _; rfl
  | succ n ih =>
      intro s l hl
      match l with
      | [] => simp at hl
      | x :: xs =>
          simp only [List.length_cons] at hl
          have hi : s % (xs.length + 1) < xs.length + 1 := Nat.mod_lt _ (by omega)
          have herase : ((x :: xs).eraseIdx (s % (xs.length + 1))).length = n := by
            rw [List.length_eraseIdx]
            simp only [List.length_cons, if_pos hi]
            omega
          simp only [shuffleAux, List.length_cons]
          rw [ih _ _ herase]

theorem length_pyShuffle (s : Nat) (l : List α) :
    (pyShuffle s l).length = l.length :=
  length_shuffleAux l.length s l rfl

/-- On an empty list the duplication loop makes no progress: it never
terminates, whatever the fuel. -/
theorem dupLoop_nil (target : Nat) (htarget : 0 < target) :
    ∀ fuel : Nat, dupLoop target fuel ([] : List α) = none := by
  intro fuel
  induction fuel with
  | zero => simp [dupLoop, Nat.not_le.mpr htarget]
  | succ n ih => simpa [dupLoop, dupStep, Nat.not_le.mpr htarget] using ih

/-- When the loop terminates from a state not above the target, the final
list has length exactly `target`. -/
theorem dupLoop_length (target : Nat) :
    ∀ (fuel : Nat) (l l' : List α), l.length ≤ target →
      dupLoop target fuel l = some l' → l'.length = target := by
  intro fuel
  induction fuel with
  | zero =>
      intro l l' hle h
      by_cases hg : target ≤ l.length
      · simp only [dupLoop, if_pos hg, Option.some.injEq] at h
        subst h; omega
      · simp [dupLoop, hg] at h
  | succ n ih =>
      intro l l' hle h
      by_cases hg : target ≤ l.length
      · simp only [dupLoop, if_pos hg, Option.some.injEq] at h
        subst h; omega
      · simp only [dupLoop, if_neg hg] at h
        have hstep : (dupStep target l).length ≤ target := by
          simp only [dupStep, List.length_append, List.length_take]
          omega
        exact ih _ _ hstep h

/-- With fuel at least `target`, the loop terminates on every nonempty
list. -/
theorem dupLoop_terminates (target : Nat) :
    ∀ (fuel : Nat) (l : List α), l ≠ [] → target ≤ fuel + l.length →
      ∃ l', dupLoop target fuel l = some l' := by
  intro fuel
  induction fuel with
  | zero =>
      intro l _ hle
      have hle' : target ≤ l.length := by omega
      exact ⟨l, by simp [dupLoop, hle']⟩
  | succ n ih =>
      intro l hne hle
      by_cases hg : target ≤ l.length
      · exact ⟨l, by simp [dupLoop, hg]⟩
      · have hpos : 0 < l.length := List.length_pos.mpr hne
        have hlen : l.length + 1 ≤ (dupStep target l).length := by
          simp only [dupStep, List.length_append, List.length_take]
          omega
        have hne' : dupStep target l ≠ [] := by
          simp only [dupStep]
          exact fun hcon => hne (List.append_eq_nil.mp hcon).1
        obtain ⟨l', hl'⟩ := ih (dupStep target l) hne' (by omega)
        exact ⟨l', by simp [dupLoop, hg, hl']⟩

theorem length_shuffledExamples (rng0 : Nat) (records : List (List Message)) :
    (shuffledExamples rng0 records).length = records.length := by
  simp [shuffledExamples, length_pyShuffle]

/-- Branch equation: when the shuffled list already has at least
`min_batch_size * 2` examples the splits are the positional cut at
`val_size`. -/
theorem prepare_eq_of_ge (rng0 : Nat) (records : List (List Message))
    (val_split : ℚ) (mb fuel : Nat)
    (h : ¬ (shuffledExamples rng0 records).length < mb * 2) :
    prepare_training_data rng0 records val_split mb fuel =
      some ((shuffledExamples rng0 records).drop
              (valSize (shuffledExamples rng0 records).length val_split mb),
            (shuffledExamples rng0 records).take
              (valSize (shuffledExamples rng0 records).length val_split mb)) := by
  simp [prepare_training_data, h]

/-- Branch equation: when the shuffled list is smaller than
`min_batch_size * 2` the duplication loop runs and the cut is at
`min_batch_size`. -/
theorem prepare_eq_of_lt (rng0 : Nat) (records : List (List Message))
    (val_split : ℚ) (mb fuel : Nat)
    (h : (shuffledExamples rng0 records).length < mb * 2) :
    prepare_training_data rng0 records val_split mb fuel =
      match dupLoop (mb * 2) fuel (shuffledExamples rng0 records) with
      | none => none
      | some padded => some (padded.drop mb, padded.take mb) := by
  simp only [prepare_training_data, if_pos h]

/-- C1: on an empty dataset, with the parameters of the in-repo call site
(`val_split = 0.1`, `min_batch_size = 2`), `prepare_training_data` never
returns, whatever fuel the duplication loop is given: extending the empty
list adds nothing, so the loop never terminates and the error print and
`sys.exit(1)` at `finetune-mlx.py` lines 156-158 are unreachable. -/
theorem mlx_empty_dataset_never_exits (rng0 fuel : Nat) :
    prepare_training_data rng0 ([] : List (List Message)) (1 / 10) 2 fuel = none := by
  have hsh : shuffledExamples rng0 ([] : List (List Message)) = [] := rfl
  have hlt : (shuffledExamples rng0 ([] : List (List Message))).length < 2 * 2 := by
    rw [hsh]; simp
  rw [prepare_eq_of_lt rng0 [] (1 / 10) 2 fuel hlt, hsh,
    dupLoop_nil (2 * 2) (by omega) fuel]

/-- C3: when the templated example count `N = records.length` is at least
`2 × min_batch_size`, the two splits are positionally disjoint slices of
the shuffled list (take/drop at `val_size`, recomposing to the whole) and
their lengths sum to `N`; when duplication occurred
(`1 ≤ N < 2 × min_batch_size`, with fuel for the loop) the lengths sum to
the padded total `2 × min_batch_size` instead. -/
theorem mlx_split_disjoint_sum (rng0 : Nat) (records : List (List Message))
    (val_split : ℚ) (mb fuel : Nat) :
    (mb * 2 ≤ records.length →
      ∃ t v, prepare_training_data rng0 records val_split mb fuel = some (t, v) ∧
        t = (shuffledExamples rng0 records).drop
              (valSize records.length val_split mb) ∧
        v = (shuffledExamples rng0 records).take
              (valSize records.length val_split mb) ∧
        v ++ t = shuffledExamples rng0 records ∧
        t.length + v.length = records.length) ∧
    (1 ≤ records.length → records.length < mb * 2 → mb * 2 ≤ fuel →
      ∃ t v, prepare_training_data rng0 records val_split mb fuel = some (t, v) ∧
        t.length + v.length = mb * 2) := by
  have hlen := length_shuffledExamples rng0 records
  constructor
  · intro hN
    have hge : ¬ (shuffledExamples rng0 records).length < mb * 2 := by omega
    refine ⟨_, _, prepare_eq_of_ge rng0 records val_split mb fuel hge,
      by rw [hlen], by rw [hlen], List.take_append_drop _ _, ?_⟩
    rw [List.length_drop, List.length_take]
    omega
  · intro hN1 hN2 hfuel
    have hlt : (shuffledExamples rng0 records).length < mb * 2 := by omega
    have hne : shuffledExamples rng0 records ≠ [] := by
      intro hcon
      rw [hcon] at hlen
      simp at hlen
      omega
    obtain ⟨padded, hpad⟩ :=
      dupLoop_terminates (mb * 2) fuel (shuffledExamples rng0 records) hne (by omega)
    have hplen : padded.length = mb * 2 :=
      dupLoop_length (mb * 2) fuel _ padded (by omega) hpad
    refine ⟨padded.drop mb, padded.take mb, ?_, ?_⟩
    · rw [prepare_eq_of_lt rng0 records val_split mb fuel hlt, hpad]
    · rw [List.length_drop, List.length_take]
      omega

/-- Witness for C3 at concrete inputs: four records exercise the
no-duplication branch, a single record the duplication branch
(`min_batch_size = 2`, `val_split = 0.1`, fuel 4). -/
theorem mlx_split_disjoint_sum_witness :
    (∃ t v, prepare_training_data 0
        [[⟨"user", "a"⟩], [⟨"user", "b"⟩], [⟨"user", "c"⟩], [⟨"user", "d"⟩]]
        (1 / 10) 2 4 = some (t, v) ∧
      t = (shuffledExamples 0
            [[⟨"user", "a"⟩], [⟨"user", "b"⟩], [⟨"user", "c"⟩], [⟨"user", "d"⟩]]).drop
            (valSize ([[(⟨"user", "a"⟩ : Message)], [⟨"user", "b"⟩], [⟨"user", "c"⟩],
              [⟨"user", "d"⟩]] : List (List Message)).length (1 / 10) 2) ∧
      v = (shuffledExamples 0
            [[⟨"user", "a"⟩], [⟨"user", "b"⟩], [⟨"user", "c"⟩], [⟨"user", "d"⟩]]).take
            (valSize ([[(⟨"user", "a"⟩ : Message)], [⟨"user", "b"⟩], [⟨"user", "c"⟩],
              [⟨"user", "d"⟩]] : List (List Message)).length (1 / 10) 2) ∧
      v ++ t = shuffledExamples 0
            [[⟨"user", "a"⟩], [⟨"user", "b"⟩], [⟨"user", "c"⟩], [⟨"user", "d"⟩]] ∧
      t.length + v.length =
        ([[(⟨"user", "a"⟩ : Message)], [⟨"user", "b"⟩], [⟨"user", "c"⟩],
          [⟨"user", "d"⟩]] : List (List Message)).length) ∧
    (∃ t v, prepare_training_data 0 [[⟨"user", "a"⟩]] (1 / 10) 2 4 = some (t, v) ∧
      t.length + v.length = 2 * 2) :=
  ⟨(mlx_split_disjoint_sum 0
      [[⟨"user", "a"⟩], [⟨"user", "b"⟩], [⟨"user", "c"⟩], [⟨"user", "d"⟩]]
      (1 / 10) 2 4).1 (by decide),
   (mlx_split_disjoint_sum 0 [[⟨"user", "a"⟩]] (1 / 10) 2 4).2
      (by decide) (by decide) (by decide)⟩

/-- C4: for every non-empty dataset (with enough fuel for the duplication
loop, and `val_split` a genuine fraction) the validation split has at
least `min_batch_size` examples, and when `N ≥ 2 × min_batch_size` its
size is exactly `max(min_batch_size, floor(N × val_split))`. -/
theorem mlx_val_split_size (rng0 : Nat) (records : List (List Message))
    (val_split : ℚ) (mb fuel : Nat)
    (hvs0 : 0 ≤ val_split) (hvs1 : val_split ≤ 1)
    (hne : records ≠ []) (hfuel : mb * 2 ≤ fuel) :
    ∃ t v, prepare_training_data rng0 records val_split mb fuel = some (t, v) ∧
      mb ≤ v.length ∧
      (mb * 2 ≤ records.length →
        v.length = max mb (Int.toNat ⌊(records.length : ℚ) * val_split⌋)) := by
  have hlen := length_shuffledExamples rng0 records
  have hNpos : 1 ≤ records.length := List.length_pos.mpr hne
  by_cases hcase : records.length < mb * 2
  · have hlt : (shuffledExamples rng0 records).length < mb * 2 := by omega
    have hnel : shuffledExamples rng0 records ≠ [] := by
      intro hcon
      rw [hcon] at hlen
      simp at hlen
      omega
    obtain ⟨padded, hpad⟩ :=
      dupLoop_terminates (mb * 2) fuel (shuffledExamples rng0 records) hnel (by omega)
    have hplen : padded.length = mb * 2 :=
      dupLoop_length (mb * 2) fuel _ padded (by omega) hpad
    refine ⟨padded.drop mb, padded.take mb, ?_, ?_, fun hcon => absurd hcon (by omega)⟩
    · rw [prepare_eq_of_lt rng0 records val_split mb fuel hlt, hpad]
    · rw [List.length_take]
      omega
  · have hge : ¬ (shuffledExamples rng0 records).length < mb * 2 := by omega
    have hfloor : Int.toNat ⌊(records.length : ℚ) * val_split⌋ ≤ records.length := by
      rw [Int.toNat_le]
      calc ⌊(records.length : ℚ) * val_split⌋
          ≤ ⌊(records.length : ℚ)⌋ := by
            apply Int.floor_le_floor
            calc (records.length : ℚ) * val_split
                ≤ (records.length : ℚ) * 1 :=
                  mul_le_mul_of_nonneg_left hvs1 (by positivity)
              _ = (records.length : ℚ) := mul_one _
        _ = (records.length : ℤ) := Int.floor_natCast _
    have hval : valSize records.length val_split mb ≤ records.length := by
      rw [valSize]
      omega
    refine ⟨_, _, prepare_eq_of_ge rng0 records val_split mb fuel hge, ?_, ?_⟩
    · rw [List.length_take, hlen]
      have : mb ≤ valSize records.length val_split mb := le_max_left _ _
      omega
    · intro _
      rw [List.length_take, hlen]
      have : valSize records.length val_split mb =
          max mb (Int.toNat ⌊(records.length : ℚ) * val_split⌋) := rfl
      omega

/-- Witness for C4 at a concrete input: four single-message records,
`val_split = 0.1`, `min_batch_size = 2`, fuel 4. -/
theorem mlx_val_split_size_witness :
    ((0 : ℚ) ≤ 1 / 10 ∧ (1 / 10 : ℚ) ≤ 1 ∧
      ([[⟨"user", "a"⟩], [⟨"user", "b"⟩], [⟨"user", "c"⟩],
        [⟨"user", "d"⟩]] : List (List Message)) ≠ [] ∧ 2 * 2 ≤ 4) ∧
    (∃ t v, prepare_training_data 0
        [[⟨"user", "a"⟩], [⟨"user", "b"⟩], [⟨"user", "c"⟩], [⟨"user", "d"⟩]]
        (1 / 10) 2 4 = some (t, v) ∧
      2 ≤ v.length ∧
      (2 * 2 ≤ ([[(⟨"user", "a"⟩ : Message)], [⟨"user", "b"⟩], [⟨"user", "c"⟩],
          [⟨"user", "d"⟩]] : List (List Message)).length →
        v.length = max 2 (Int.toNat ⌊(([[(⟨"user", "a"⟩ : Message)], [⟨"user", "b"⟩],
          [⟨"user", "c"⟩], [⟨"user", "d"⟩]] : List (List Message)).length : ℚ) *
          (1 / 10)⌋))) :=
  ⟨⟨by norm_num, by norm_num, by decide, by norm_num⟩,
   mlx_val_split_size 0
     [[⟨"user", "a"⟩], [⟨"user", "b"⟩], [⟨"user", "c"⟩], [⟨"user", "d"⟩]]
     (1 / 10) 2 4 (by norm_num) (by norm_num) (by decide) (by norm_num)⟩

/-- C9: the dataset split is deterministic: the ambient PRNG state at
entry has no influence on the output, because `random.seed(42)` fixes the
generator state before the shuffle; two runs on the same parsed input with
the same parameters therefore produce identical train and validation
sequences. -/
theorem mlx_split_deterministic (rng0 rng1 : Nat)
    (records : List (List Message)) (val_split : ℚ) (mb fuel : Nat) :
    prepare_training_data rng0 records val_split mb fuel =
      prepare_training_data rng1 records val_split mb fuel := rfl

/-- C7: when the number of prepared examples is smaller than the requested
batch size, the batch size becomes `max(1, num_examples)` — never more
than the request; otherwise the request is used unchanged. -/
theorem mlx_batch_size_adjustment (num_examples batch_size : Nat) :
    (num_examples < batch_size →
      adjustBatchSize num_examples batch_size = max 1 num_examples) ∧
    (batch_size ≤ num_examples →
      adjustBatchSize num_examples batch_size = batch_size) ∧
    adjustBatchSize num_examples batch_size ≤ max batch_size num_examples := by
  refine ⟨fun h => by simp [adjustBatchSize, h], fun h => by
    simp [adjustBatchSize, Nat.not_lt.mpr h], ?_⟩
  by_cases h : num_examples < batch_size <;> simp [adjustBatchSize, h] <;> omega

/-- Witness for C7 at concrete inputs: 1 example against batch size 5, and
5 examples against batch size 2. -/
theorem mlx_batch_size_adjustment_witness :
    (1 < 5 ∧ adjustBatchSize 1 5 = max 1 1) ∧
    (2 ≤ 5 ∧ adjustBatchSize 5 2 = 2) :=
  ⟨⟨by decide, (mlx_batch_size_adjustment 1 5).1 (by decide)⟩,
   ⟨by decide, (mlx_batch_size_adjustment 5 2).2.1 (by decide)⟩⟩

/-- C5: with a positive (possibly adjusted) batch size — on batch size 0
the Python would instead raise `ZeroDivisionError` — the iteration count
handed to the trainer is the floored quotient
`num_examples × epochs ÷ batch_size`, raised to 10 when that quotient is
below 10; in particular it is always at least 10. -/
theorem mlx_iters_floored_minimum (num_examples epochs batch_size : Nat)
    (hbs : 0 < batch_size) :
    (num_examples * epochs / batch_size < 10 →
      computeIters num_examples epochs batch_size = 10) ∧
    (10 ≤ num_examples * epochs / batch_size →
      computeIters num_examples epochs batch_size =
        num_examples * epochs / batch_size) ∧
    10 ≤ computeIters num_examples epochs batch_size := by
  refine ⟨fun h => by simp [computeIters, h], fun h => by
    simp [computeIters, Nat.not_lt.mpr h], ?_⟩
  by_cases h : num_examples * epochs / batch_size < 10 <;>
    simp [computeIters, h] <;> omega

/-- Witness for C5 at a concrete input: 12 examples, 3 epochs, batch size
2 give quotient 18 ≥ 10. -/
theorem mlx_iters_floored_minimum_witness :
    0 < 2 ∧
    ((12 * 3 / 2 < 10 → computeIters 12 3 2 = 10) ∧
      (10 ≤ 12 * 3 / 2 → computeIters 12 3 2 = 12 * 3 / 2) ∧
      10 ≤ computeIters 12 3 2) :=
  ⟨by decide, mlx_iters_floored_minimum 12 3 2 (by decide)⟩

/-- C2 counterexample: a run of the Unsloth script with unsloth missing
`return`s from `train` instead of exiting, so the process exit code is 0 —
not non-zero as claimed. -/
theorem unsloth_missing_dep_exit_is_zero :
    processExitCode (unslothTrainOutcome false true .completed) = 0 := rfl

/-- C2 (amended): on a missing required training dependency neither script
raises through the guarded check: the MLX script terminates via
`sys.exit(1)` (exit code 1, non-zero), while the Unsloth script prints the
error and returns normally, so its process exits with code 0. -/
theorem missing_dependency_exit_codes (known_model : Bool) (rest : RunOutcome) :
    processExitCode (mlxTrainOutcome false rest) = 1 ∧
    processExitCode (unslothTrainOutcome false known_model rest) = 0 :=
  ⟨rfl, rfl⟩

theorem length_sortedDesc (l : List String) :
    (sortedDesc l).length = l.length :=
  (List.perm_insertionSort _ l).length_eq

theorem sortedDesc_head_max (l : List String) (f : String) (rest : List String)
    (h : sortedDesc l = f :: rest) :
    f ∈ l ∧ ∀ x ∈ l, x ≤ f := by
  have hperm : List.Perm (sortedDesc l) l := List.perm_insertionSort _ l
  have hsorted : List.Sorted (· ≥ ·) (sortedDesc l) := List.sorted_insertionSort _ l
  rw [h] at hperm hsorted
  refine ⟨hperm.mem_iff.mp (List.mem_cons_self f rest), ?_⟩
  intro x hx
  rcases List.mem_cons.mp (hperm.mem_iff.mpr hx) with heq | hmem
  · exact le_of_eq heq
  · exact List.rel_of_sorted_cons hsorted x hmem

theorem sortedDesc_nil_glob (l : List String) (h : sortedDesc l = []) :
    l = [] := by
  have hl := length_sortedDesc l
  rw [h] at hl
  exact List.length_eq_zero.mp hl.symm

/-- C8: with `--data` absent, the default input path is determined by the
glob results: the three patterns are tried in order, the first pattern
with any matches contributes its greatest filename in the string order
(the most recent, under the date-stamped naming convention), and the fixed
`budget-assistant-latest.jsonl` is returned when no pattern matches. -/
theorem default_training_file_choice (glob : String → List String) :
    (glob "budget-assistant-*.jsonl" ≠ [] →
      find_latest_training_file glob ∈ glob "budget-assistant-*.jsonl" ∧
      ∀ f ∈ glob "budget-assistant-*.jsonl",
        f ≤ find_latest_training_file glob) ∧
    (glob "budget-assistant-*.jsonl" = [] →
      glob "personal/personal-*.jsonl" ≠ [] →
      find_latest_training_file glob ∈ glob "personal/personal-*.jsonl" ∧
      ∀ f ∈ glob "personal/personal-*.jsonl",
        f ≤ find_latest_training_file glob) ∧
    (glob "budget-assistant-*.jsonl" = [] →
      glob "personal/personal-*.jsonl" = [] →
      glob "combined.jsonl" ≠ [] →
      find_latest_training_file glob ∈ glob "combined.jsonl" ∧
      ∀ f ∈ glob "combined.jsonl", f ≤ find_latest_training_file glob) ∧
    (glob "budget-assistant-*.jsonl" = [] →
      glob "personal/personal-*.jsonl" = [] →
      glob "combined.jsonl" = [] →
      find_latest_training_file glob = "budget-assistant-latest.jsonl") := by
  cases h1 : sortedDesc (glob "budget-assistant-*.jsonl") with
  | cons f rest =>
      have hmax := sortedDesc_head_max _ f rest h1
      have hne1 : glob "budget-assistant-*.jsonl" ≠ [] :=
        fun hc => by rw [hc] at h1; exact List.noConfusion h1
      have hres : find_latest_training_file glob = f := by
        simp [find_latest_training_file, trainingFilePatterns, findLatestGo, h1]
      rw [hres]
      exact ⟨fun _ => hmax, fun hnil => absurd hnil hne1,
        fun hnil _ => absurd hnil hne1, fun hnil _ _ => absurd hnil hne1⟩
  | nil =>
      have hnil1 : glob "budget-assistant-*.jsonl" = [] := sortedDesc_nil_glob _ h1
      cases h2 : sortedDesc (glob "personal/personal-*.jsonl") with
      | cons f rest =>
          have hmax := sortedDesc_head_max _ f rest h2
          have hne2 : glob "personal/personal-*.jsonl" ≠ [] :=
            fun hc => by rw [hc] at h2; exact List.noConfusion h2
          have hres : find_latest_training_file glob = f := by
            simp [find_latest_training_file, trainingFilePatterns, findLatestGo,
              h1, h2]
          rw [hres]
          exact ⟨fun hne => absurd hnil1 hne, fun _ _ => hmax,
            fun _ hnil _ => absurd hnil hne2, fun _ hnil _ => absurd hnil hne2⟩
      | nil =>
          have hnil2 : glob "personal/personal-*.jsonl" = [] :=
            sortedDesc_nil_glob _ h2
          cases h3 : sortedDesc (glob "combined.jsonl") with
          | cons f rest =>
              have hmax := sortedDesc_head_max _ f rest h3
              have hne3 : glob "combined.jsonl" ≠ [] :=
                fun hc => by rw [hc] at h3; exact List.noConfusion h3
              have hres : find_latest_training_file glob = f := by
                simp [find_latest_training_file, trainingFilePatterns,
                  findLatestGo, h1, h2, h3]
              rw [hres]
              exact ⟨fun hne => absurd hnil1 hne, fun _ hne => absurd hnil2 hne,
                fun _ _ _ => hmax, fun _ _ hnil => absurd hnil hne3⟩
          | nil =>
              have hnil3 : glob "combined.jsonl" = [] := sortedDesc_nil_glob _ h3
              have hres : find_latest_training_file glob =
                  "budget-assistant-latest.jsonl" := by
                simp [find_latest_training_file, trainingFilePatterns,
                  findLatestGo, h1, h2, h3]
              exact ⟨fun hne => absurd hnil1 hne, fun _ hne => absurd hnil2 hne,
                fun _ _ hne => absurd hnil3 hne, fun _ _ _ => hres⟩

/-- Witness for C8 at a concrete filesystem: two date-stamped matches for
the first pattern, nothing else. -/
theorem default_training_file_choice_witness :
    (fun p => if p = "budget-assistant-*.jsonl" then
        ["budget-assistant-2025-01-01.jsonl", "budget-assistant-2025-03-01.jsonl"]
      else ([] : List String)) "budget-assistant-*.jsonl" ≠ [] ∧
    (find_latest_training_file (fun p => if p = "budget-assistant-*.jsonl" then
        ["budget-assistant-2025-01-01.jsonl", "budget-assistant-2025-03-01.jsonl"]
      else ([] : List String)) ∈
      (fun p => if p = "budget-assistant-*.jsonl" then
        ["budget-assistant-2025-01-01.jsonl", "budget-assistant-2025-03-01.jsonl"]
      else ([] : List String)) "budget-assistant-*.jsonl" ∧
    ∀ f ∈ (fun p => if p = "budget-assistant-*.jsonl" then
        ["budget-assistant-2025-01-01.jsonl", "budget-assistant-2025-03-01.jsonl"]
      else ([] : List String)) "budget-assistant-*.jsonl",
      f ≤ find_latest_training_file (fun p => if p = "budget-assistant-*.jsonl" then
        ["budget-assistant-2025-01-01.jsonl", "budget-assistant-2025-03-01.jsonl"]
      else ([] : List String))) :=
  ⟨by simp,
    (default_training_file_choice (fun p => if p = "budget-assistant-*.jsonl" then
        ["budget-assistant-2025-01-01.jsonl", "budget-assistant-2025-03-01.jsonl"]
      else ([] : List String))).1 (by simp)⟩

end Budget
